import Mathlib

/-!
# Verification of the ccm-manager resource-sync and launch core

Shallow embedding of the pure logic of `src/runner.ts`, `src/state.ts` and
`src/config.ts` of the `ccm-manager` CLI, together with theorems settling the
specification claims about it.

Modelling conventions:
* JavaScript objects whose keys are significant (the `mcpServers` mapping,
  `process.env`) are modelled as insertion-ordered association lists, matching
  the ordered-key semantics of JS objects and of `JSON.stringify`.
* Opaque MCP server-definition values are modelled as `Nat`.
* The filesystem is modelled as a flat association list from path strings to
  entries; `stat`/`existsSync` follow symlink chains with explicit fuel
  (standing for the kernel's bounded link resolution), `lstat` does not.
-/

/-- A JavaScript object with values of type `β`: an insertion-ordered list of
key/value pairs. `JSON.stringify` equality of two such objects is exactly list
equality (same keys in the same order with the same values). -/
abbrev Obj (β : Type) := List (String × β)

namespace Obj

/-- Property access `o[k]`: the first binding of key `k`, if any. -/
def find? {β : Type} (o : Obj β) (k : String) : Option β :=
  (List.find? (fun kv => kv.1 == k) o).map (fun kv => kv.2)

/-- JS object spread `{...target, ...source}`: target keys keep their
positions but take the source value when the source also has the key; keys
appearing only in the source are appended, in source order. -/
def spread {β : Type} (target source : Obj β) : Obj β :=
  target.map (fun kv => (kv.1, ((find? source kv.1).getD kv.2))) ++
    source.filter (fun kv => (find? target kv.1).isNone)

theorem find?_cons {β : Type} (kv : String × β) (rest : Obj β) (k : String) :
    find? (kv :: rest) k = if kv.1 == k then some kv.2 else find? rest k := by
  simp only [find?, List.find?_cons]
  by_cases h : kv.1 == k <;> simp [h]

theorem find?_nil {β : Type} (k : String) : find? ([] : Obj β) k = none := rfl

theorem find?_append {β : Type} (a b : Obj β) (k : String) :
    find? (a ++ b) k = (find? a k).or (find? b k) := by
  unfold find?
  rw [List.find?_append]
  cases List.find? (fun kv => kv.1 == k) a <;> simp

/-- Lookup in the overwritten copy of the target inside a spread. -/
theorem find?_map_spread {β : Type} (target source : Obj β) (k : String) :
    find? (target.map (fun kv => (kv.1, ((find? source kv.1).getD kv.2)))) k
      = (find? target k).map (fun v => (find? source k).getD v) := by
  induction target with
  | nil => rfl
  | cons kv rest ih =>
    rw [List.map_cons, find?_cons, find?_cons]
    by_cases h : kv.1 = k
    · subst h
      simp
    · have hb : (kv.1 == k) = false := by simpa using h
      simp only [hb]
      simpa using ih

/-- When a key is absent from the target, the filtered source keeps its
bindings of that key. -/
theorem find?_filter_isNone {β : Type} (source target : Obj β) (k : String)
    (ht : find? target k = none) :
    find? (source.filter (fun kv => (find? target kv.1).isNone)) k
      = find? source k := by
  induction source with
  | nil => rfl
  | cons kv rest ih =>
    by_cases hg : (find? target kv.1).isNone = true
    · simp only [List.filter_cons, hg, if_true, find?_cons]
      by_cases hk : (kv.1 == k) = true
      · simp [hk]
      · have hb : (kv.1 == k) = false := by simpa using hk
        simp only [hb, if_false]
        exact ih
    · have hb : ((find? target kv.1).isNone) = false := Bool.eq_false_iff.mpr hg
      have hkk : kv.1 ≠ k := by
        intro he
        rw [he, ht] at hb
        simp at hb
      have hbk : (kv.1 == k) = false := by simpa using hkk
      simp only [List.filter_cons, hb, Bool.false_eq_true, if_false, find?_cons, hbk]
      exact ih

/-- When a key is present in the target, the filtered source drops all of its
bindings of that key. -/
theorem find?_filter_isSome {β : Type} (source target : Obj β) (k : String)
    (ht : (find? target k).isSome = true) :
    find? (source.filter (fun kv => (find? target kv.1).isNone)) k = none := by
  induction source with
  | nil => rfl
  | cons kv rest ih =>
    by_cases hg : (find? target kv.1).isNone = true
    · have hkk : kv.1 ≠ k := by
        intro he
        rw [he] at hg
        rw [Option.isNone_iff_eq_none] at hg
        rw [hg] at ht
        simp at ht
      have hbk : (kv.1 == k) = false := by simpa using hkk
      simp only [List.filter_cons, hg, if_true, find?_cons, hbk, if_false]
      exact ih
    · have hb : ((find? target kv.1).isNone) = false := Bool.eq_false_iff.mpr hg
      simp only [List.filter_cons, hb, Bool.false_eq_true, if_false]
      exact ih

/-- Key lookup law for the JS spread merge: the source wins on every key it
has, and keys it lacks fall back to the target. -/
theorem find?_spread {β : Type} (target source : Obj β) (k : String) :
    find? (spread target source) k = (find? source k).or (find? target k) := by
  unfold spread
  rw [find?_append, find?_map_spread]
  cases ht : find? target k with
  | none =>
    rw [find?_filter_isNone source target k ht]
    simp
  | some v =>
    rw [find?_filter_isSome source target k (by rw [ht]; rfl)]
    cases hs : find? source k <;> simp [hs]

end Obj

/-- The merged `mcpServers` mapping computed by `syncMcpServersForSync`
(runner.ts lines 397-399): `force ? { ...sourceMcpServers } :
{ ...targetMcpServers, ...sourceMcpServers }`.  A spread copy `{...source}`
of a JS object is the same ordered list of bindings as `source` itself. -/
def mergedMcpServers (force : Bool) (targetMcpServers sourceMcpServers : Obj Nat) : Obj Nat :=
  if force then sourceMcpServers else Obj.spread targetMcpServers sourceMcpServers

/-- The concrete source mapping `{a:1,b:2}` of the claim. -/
def srcExample : Obj Nat := [("a", 1), ("b", 2)]

/-- The concrete target mapping `{b:3,c:4}` of the claim. -/
def tgtExample : Obj Nat := [("b", 3), ("c", 4)]

/-- C1: For every non-forced MCP merge where the source `mcpServers` mapping
and the target mapping overlap, the merged mapping is their union with source
values winning on every colliding key and target-only keys preserved; under
force the merged mapping is exactly the source mapping, with every target-only
key dropped. -/
theorem mcp_merge_source_wins (target source : Obj Nat)
    (_hoverlap : ∃ k, (Obj.find? source k).isSome ∧ (Obj.find? target k).isSome) :
    (∀ k v, Obj.find? source k = some v →
        Obj.find? (mergedMcpServers false target source) k = some v)
    ∧ (∀ k v, Obj.find? source k = none → Obj.find? target k = some v →
        Obj.find? (mergedMcpServers false target source) k = some v)
    ∧ mergedMcpServers true target source = source
    ∧ (∀ k, Obj.find? source k = none →
        Obj.find? (mergedMcpServers true target source) k = none) := by
  refine ⟨?_, ?_, rfl, ?_⟩
  · intro k v hs
    show Obj.find? (Obj.spread target source) k = some v
    rw [Obj.find?_spread, hs]
    rfl
  · intro k v hs htv
    show Obj.find? (Obj.spread target source) k = some v
    rw [Obj.find?_spread, hs, htv]
    rfl
  · intro k hs
    exact hs

/-- C1 witness: the merge law applied at the concrete mappings of the claim,
source `{a:1,b:2}` and target `{b:3,c:4}` (overlapping on `b`), together with
the in-particular evaluations: the non-forced merged object is
`{b:2,c:4,a:1}`, i.e. the mapping `{a:1,b:2,c:4}`, and the forced merged
object is exactly `{a:1,b:2}`. -/
theorem mcp_merge_source_wins_witness :
    Obj.find? (mergedMcpServers false tgtExample srcExample) "b" = some 2
    ∧ mergedMcpServers false tgtExample srcExample = [("b", 2), ("c", 4), ("a", 1)]
    ∧ (mergedMcpServers false tgtExample srcExample).Perm [("a", 1), ("b", 2), ("c", 4)]
    ∧ mergedMcpServers true tgtExample srcExample = [("a", 1), ("b", 2)] :=
  ⟨(mcp_merge_source_wins tgtExample srcExample ⟨"b", by decide⟩).1 "b" 2 (by decide),
    by decide, by decide, by decide⟩

/-! ## Filesystem model for the symlink synchronizer and the MCP merge -/

/-- The parse of a `.claude.json` document: the optional `mcpServers` mapping
plus `extra`, which stands for all the other top-level keys of the document
(opaque to the merge, round-tripped untouched on a write). -/
structure McpDoc where
  mcpServers : Option (Obj Nat)
  extra : Nat
deriving DecidableEq, Repr

/-- The empty JS object `{}` used when a target document is absent or fails to
parse. -/
def emptyDoc : McpDoc := { mcpServers := none, extra := 0 }

/-- A directory entry. For a regular file we record only its JSON parse: the
sync code never inspects any other aspect of file contents (`none` stands for
contents that are not valid JSON, e.g. an ordinary text file). -/
inductive Entry
  | file (doc : Option McpDoc)
  | dir
  | symlink (target : String)
deriving DecidableEq, Repr

/-- A filesystem: a flat association of absolute paths to entries. -/
abbrev FS := List (String × Entry)

namespace FS

/-- `lstatSync`: the entry at a path, not following a symlink at that path. -/
def lstat (fs : FS) (p : String) : Option Entry :=
  (List.find? (fun e => e.1 == p) fs).map (fun e => e.2)

/-- Resolve a symlink chain at a path with explicit fuel, returning the final
path and its (non-symlink) entry.  Fuel stands for the kernel's bound on
symlink traversal: a cyclic chain exhausts it and errors (`none`). -/
def resolve (fs : FS) : Nat → String → Option (String × Entry)
  | 0, _ => none
  | fuel + 1, p =>
    match lstat fs p with
    | some (Entry.symlink t) => resolve fs fuel t
    | some e => some (p, e)
    | none => none

/-- `statSync`: resolve the path, with fuel one larger than the number of
entries so that only a genuine cycle can exhaust it. -/
def stat (fs : FS) (p : String) : Option (String × Entry) :=
  resolve fs (fs.length + 1) p

/-- `existsSync`: follows symlinks; a dangling or cyclic link does not exist. -/
def existsSync (fs : FS) (p : String) : Bool :=
  (stat fs p).isSome

/-- `rmSync(p)`: remove the entry at exactly `p`. -/
def remove (fs : FS) (p : String) : FS :=
  fs.filter (fun e => e.1 != p)

/-- `rmSync(p, {recursive: true})`: remove the entry at `p` and everything
below it. -/
def removeRecursive (fs : FS) (p : String) : FS :=
  fs.filter (fun e => !(e.1 == p || (p ++ "/").data.isPrefixOf e.1.data))

/-- Install entry `e` at path `p`: replace an existing entry in place, or
append a new one. -/
def setEntry (fs : FS) (p : String) (e : Entry) : FS :=
  if (lstat fs p).isSome then
    fs.map (fun kv => if kv.1 = p then (p, e) else kv)
  else fs ++ [(p, e)]

theorem lstat_setEntry_self (fs : FS) (p : String) (e : Entry) :
    lstat (setEntry fs p e) p = some e := by
  unfold setEntry
  by_cases h : (lstat fs p).isSome = true
  · rw [if_pos h]
    unfold lstat at *
    induction fs with
    | nil => simp at h
    | cons kv rest ih =>
      by_cases hp : kv.1 = p
      · simp [hp]
      · have hb : (kv.1 == p) = false := by simpa using hp
        simp only [List.map_cons, if_neg hp, List.find?_cons, hb] at *
        exact ih h
  · rw [if_neg h]
    unfold lstat at *
    rw [List.find?_append]
    have hn : List.find? (fun e => e.1 == p) fs = none := by
      cases hf : List.find? (fun e => e.1 == p) fs with
      | none => rfl
      | some v => rw [hf] at h; simp at h
    rw [hn]
    simp

end FS

/-- JS `String.prototype.split` with a one-character separator, written over
the character list so that kernel evaluation can reduce it. -/
def splitCharAux (sep : Char) : List Char → List Char → List (List Char)
  | [], acc => [acc.reverse]
  | c :: cs, acc =>
    if c = sep then acc.reverse :: splitCharAux sep cs []
    else splitCharAux sep cs (c :: acc)

def jsSplit (s : String) (sep : Char) : List String :=
  (splitCharAux sep s.data []).map (fun cs => String.mk cs)

/-- JS `Array.prototype.join(sep)`. -/
def joinSep (sep : String) : List String → String
  | [] => ""
  | [x] => x
  | x :: xs => x ++ sep ++ joinSep sep xs

/-- `path.dirname` for the clean POSIX paths the tool builds with `join`
(no trailing slashes). -/
def dirname (p : String) : String :=
  match (jsSplit p '/').dropLast with
  | [] => "."
  | [""] => "/"
  | parts => joinSep "/" parts

/-- `path.join(a, b)` for a clean directory path `a` and a relative name `b`,
as used throughout runner.ts. -/
def pjoin (a b : String) : String := a ++ "/" ++ b

/-- `expandPath` (config.ts lines 76-81): a leading `~` is replaced by the
home directory; `join(homedir(), path.slice(1))` on the cleaned inputs used by
the tool equals the plain concatenation below.  The `startsWith`/`slice` pair
is written over the character list so that kernel evaluation can reduce it. -/
def expandPath (home : String) (p : String) : String :=
  if p.data.head? = some '~' then home ++ String.mk (p.data.drop 1) else p

/-- `ensureSymlink` (runner.ts lines 199-231), acting on the modelled
filesystem and returning the updated filesystem with the `created` flag.
`mklink` is the shared tail of the function: ensure the parent directory
exists (`mkdirSync` of the missing parent), then create the symlink.  In the
model symlink creation itself always succeeds, since every branch reaching it
has first removed any entry at `target`. -/
def mklink (fs : FS) (source target : String) : FS × Bool :=
  let fs' := if ¬ FS.existsSync fs (dirname target) then
    FS.setEntry fs (dirname target) Entry.dir else fs
  (FS.setEntry fs' target (Entry.symlink source), true)

def ensureSymlink (fs : FS) (source target : String) (force : Bool) : FS × Bool :=
  -- Skip if source doesn't exist
  if ¬ FS.existsSync fs source then (fs, false)
  else
    -- Check current state (lstat throwing = target absent)
    match FS.lstat fs target with
    | some (Entry.symlink t) =>
      if t = source then (fs, false) -- Already correct
      else mklink (FS.remove fs target) source target -- Wrong symlink, remove it
    | some _ =>
      if ¬ force then (fs, false) -- Real file/directory exists, skip
      else mklink (FS.removeRecursive fs target) source target -- Force mode
    | none => mklink fs source target

/-- After a call of `ensureSymlink` that reaches symlink creation, the target
holds a symlink to the source. -/
theorem lstat_mklink (fs : FS) (source target : String) :
    FS.lstat (mklink fs source target).1 target = some (Entry.symlink source) := by
  unfold mklink
  exact FS.lstat_setEntry_self _ _ _

/-- A call of `ensureSymlink` on a target that already links to the source is
a no-op returning `false`, whatever the rest of the filesystem looks like. -/
theorem ensureSymlink_linked (fs : FS) (source target : String) (force : Bool)
    (h : FS.lstat fs target = some (Entry.symlink source)) :
    ensureSymlink fs source target force = (fs, false) := by
  unfold ensureSymlink
  by_cases he : FS.existsSync fs source = true
  · rw [if_neg (not_not_intro he), h]
    dsimp only
    rw [if_pos rfl]
  · rw [if_pos he]

/-- Every call of `ensureSymlink` either changes nothing and reports `false`,
or leaves the target holding a symlink to the source. -/
theorem ensureSymlink_result (fs : FS) (source target : String) (force : Bool) :
    ensureSymlink fs source target force = (fs, false)
    ∨ FS.lstat (ensureSymlink fs source target force).1 target
        = some (Entry.symlink source) := by
  unfold ensureSymlink
  by_cases he : FS.existsSync fs source = true
  · rw [if_neg (not_not_intro he)]
    cases hl : FS.lstat fs target with
    | some e =>
      cases e with
      | symlink t =>
        by_cases ht : t = source
        · left
          dsimp only
          rw [if_pos ht]
        · right
          dsimp only
          rw [if_neg ht]
          exact lstat_mklink _ _ _
      | file d =>
        by_cases hf : force = true
        · right
          dsimp only
          rw [if_neg (not_not_intro hf)]
          exact lstat_mklink _ _ _
        · left
          dsimp only
          rw [if_pos hf]
      | dir =>
        by_cases hf : force = true
        · right
          dsimp only
          rw [if_neg (not_not_intro hf)]
          exact lstat_mklink _ _ _
        · left
          dsimp only
          rw [if_pos hf]
    | none =>
      right
      dsimp only
      exact lstat_mklink _ _ _
  · left
    rw [if_pos he]

/-- C7: calling `ensureSymlink` twice in a row with identical arguments is
idempotent: the second call performs no filesystem change and returns `false`
("not created"), leaving whatever the first call created or observed
unchanged. -/
theorem ensureSymlink_idempotent (fs : FS) (source target : String) (force : Bool) :
    ensureSymlink (ensureSymlink fs source target force).1 source target force
      = ((ensureSymlink fs source target force).1, false) := by
  rcases ensureSymlink_result fs source target force with h | h
  · rw [h]
    exact h
  · exact ensureSymlink_linked _ _ _ _ h

/-! ## The MCP merge engine (`syncMcpServersForSync`, runner.ts 366-414) -/

/-- `JSON.parse(readFileSync(p))` where any thrown error is propagated to the
caller: `none` when the path is unreadable (a directory) or not valid JSON. -/
def readJson (fs : FS) (p : String) : Option McpDoc :=
  match FS.stat fs p with
  | some (_, Entry.file d) => d
  | _ => none

/-- Reading the target document (runner.ts 385-392): `{}` when the file does
not exist, and `{}` again when reading or parsing it throws (the inner
`catch`). -/
def readTargetDoc (fs : FS) (p : String) : McpDoc :=
  if FS.existsSync fs p then
    match FS.stat fs p with
    | some (_, Entry.file (some d)) => d
    | _ => emptyDoc
  else emptyDoc

/-- `writeFileSync` of a JSON document: follows a symlink at the path,
overwrites the resolved file, or creates the file when the path is absent. -/
def writeJson (fs : FS) (p : String) (d : McpDoc) : FS :=
  match FS.stat fs p with
  | some (q, _) => FS.setEntry fs q (Entry.file (some d))
  | none => FS.setEntry fs p (Entry.file (some d))

/-- The merge-and-write tail of `syncMcpServersForSync` (runner.ts 394-410):
compare the serialized pre-merge target mapping with the serialized merged
mapping (`JSON.stringify` equality of JS objects is ordered-list equality);
if unchanged return `false` without writing, otherwise write the target
document back with only its `mcpServers` key replaced and return `true`. -/
def mcpMergeStep (fs : FS) (targetFile : String) (force : Bool)
    (sourceMcpServers : Obj Nat) : FS × Option Bool :=
  if ((readTargetDoc fs targetFile).mcpServers.getD [])
      = mergedMcpServers force ((readTargetDoc fs targetFile).mcpServers.getD [])
          sourceMcpServers
  then (fs, some false)
  else
    (writeJson fs targetFile
      { readTargetDoc fs targetFile with
          mcpServers := some (mergedMcpServers force
            ((readTargetDoc fs targetFile).mcpServers.getD []) sourceMcpServers) },
      some true)

/-- `syncMcpServersForSync(configDir, force)` (runner.ts 366-414). `none` is
the `null` no-op signal; the outer `catch` (source read or parse failure)
also yields `null`. -/
def syncMcpServersForSync (home : String) (fs : FS) (configDir : String)
    (force : Bool) : FS × Option Bool :=
  -- Skip if target is the default config
  if expandPath home configDir = expandPath home "~/.claude" then (fs, none)
  else
    -- Read MCP servers from ~/.claude/.claude.json (source of truth)
    if ¬ FS.existsSync fs (pjoin (expandPath home "~/.claude") ".claude.json")
    then (fs, none)
    else
      match readJson fs (pjoin (expandPath home "~/.claude") ".claude.json") with
      | none => (fs, none)
      | some sourceData =>
        if (sourceData.mcpServers.getD []).isEmpty then (fs, none)
        else
          mcpMergeStep fs (pjoin (expandPath home configDir) ".claude.json") force
            (sourceData.mcpServers.getD [])

/-! ## The symlink synchronizer (`syncSharedResources`, runner.ts 321-361) -/

/-- Shared resources from `~/.claude` to sync across all providers
(runner.ts lines 12-22). -/
def SHARED_RESOURCES : List String :=
  ["commands", "settings.json", "plugins", "skills", "agents",
   "CLAUDE.md", "AGENTS.md", "prompts", ".ccsignore"]

/-- `SyncResult` (runner.ts line 319); the status is one of the string
literals `created`, `exists`, `skipped`, `forced`. -/
structure SyncResult where
  resource : String
  status : String
deriving DecidableEq, Repr

/-- The source path of a resource: `~/.ccsignore` lives outside the canonical
tree, everything else under it (runner.ts 331-333). -/
def resourceSource (home baseSource resource : String) : String :=
  if resource = ".ccsignore" then expandPath home "~/.ccsignore"
  else pjoin baseSource resource

/-- The `ensureSymlink` call and result record of one loop iteration
(runner.ts 350-351). -/
def syncCreate (home : String) (fs : FS) (baseSource targetDir : String)
    (force : Bool) (resource : String) : FS × SyncResult :=
  ((ensureSymlink fs (resourceSource home baseSource resource)
      (pjoin targetDir resource) force).1,
    ⟨resource,
      if (ensureSymlink fs (resourceSource home baseSource resource)
            (pjoin targetDir resource) force).2
      then (if force then "forced" else "created") else "skipped"⟩)

/-- One iteration of the resource loop (runner.ts 330-352). -/
def syncOne (home : String) (fs : FS) (baseSource targetDir : String)
    (force : Bool) (resource : String) : FS × SyncResult :=
  if ¬ FS.existsSync fs (resourceSource home baseSource resource) then
    (fs, ⟨resource, "skipped"⟩)
  else
    match FS.lstat fs (pjoin targetDir resource) with
    | some (Entry.symlink t) =>
      if t = resourceSource home baseSource resource then (fs, ⟨resource, "exists"⟩)
      else syncCreate home fs baseSource targetDir force resource
    | some _ => syncCreate home fs baseSource targetDir force resource
    | none => syncCreate home fs baseSource targetDir force resource

/-- The resource loop, threading the filesystem and accumulating one result
per resource in declared order. -/
def syncLoop (home baseSource targetDir : String) (force : Bool) :
    FS → List String → FS × List SyncResult
  | fs, [] => (fs, [])
  | fs, resource :: rest =>
    ((syncLoop home baseSource targetDir force
        (syncOne home fs baseSource targetDir force resource).1 rest).1,
      (syncOne home fs baseSource targetDir force resource).2 ::
        (syncLoop home baseSource targetDir force
          (syncOne home fs baseSource targetDir force resource).1 rest).2)

/-- The tail of `syncSharedResources` (runner.ts 354-360): run the MCP sync
on the filesystem left by the loop and append its report entry when it did
not signal `null`. -/
def syncTail (home : String) (r : FS × List SyncResult) (configDir : String)
    (force : Bool) : FS × Option (List SyncResult) :=
  match syncMcpServersForSync home r.1 configDir force with
  | (fs', some b) =>
    (fs', some (r.2 ++ [⟨"mcpServers", if b then "created" else "exists"⟩]))
  | (fs', none) => (fs', some r.2)

/-- `syncSharedResources(configDir, force)` (runner.ts 321-361). `none` is
the `null` sentinel returned when the target is the canonical source. -/
def syncSharedResources (home : String) (fs : FS) (configDir : String)
    (force : Bool) : FS × Option (List SyncResult) :=
  -- Skip if configDir is the source itself
  if expandPath home configDir = expandPath home "~/.claude" then (fs, none)
  else
    syncTail home
      (syncLoop home (expandPath home "~/.claude") (expandPath home configDir)
        force fs SHARED_RESOURCES)
      configDir force

/-- C9: whenever the target config directory resolves to the same path as the
canonical source root, `syncSharedResources` returns the no-sync sentinel
(`null`) with the filesystem untouched, and the MCP merge likewise returns
its no-op signal without touching any file. -/
theorem sync_self_noop (home : String) (fs : FS) (configDir : String) (force : Bool)
    (h : expandPath home configDir = expandPath home "~/.claude") :
    syncSharedResources home fs configDir force = (fs, none)
    ∧ syncMcpServersForSync home fs configDir force = (fs, none) := by
  constructor
  · unfold syncSharedResources
    rw [if_pos h]
  · unfold syncMcpServersForSync
    rw [if_pos h]

/-- C9 witness: a provider whose `configDir` is `~/.claude` itself. -/
theorem sync_self_noop_witness :
    syncSharedResources "/home/u" [("/home/u/.claude", Entry.dir)] "~/.claude" false
      = ([("/home/u/.claude", Entry.dir)], none)
    ∧ syncMcpServersForSync "/home/u" [("/home/u/.claude", Entry.dir)] "~/.claude" false
      = ([("/home/u/.claude", Entry.dir)], none) :=
  sync_self_noop "/home/u" [("/home/u/.claude", Entry.dir)] "~/.claude" false rfl

theorem Obj.spread_nil {β : Type} (s : Obj β) : Obj.spread [] s = s := by
  unfold Obj.spread
  simp [Obj.find?_nil]

theorem mergedMcpServers_nil (force : Bool) (s : Obj Nat) :
    mergedMcpServers force [] s = s := by
  cases force
  · exact Obj.spread_nil s
  · rfl

/-- A target document that exists but fails to parse is read as `{}`. -/
theorem readTargetDoc_unparseable (fs : FS) (p q : String)
    (h : FS.stat fs p = some (q, Entry.file none)) :
    readTargetDoc fs p = emptyDoc := by
  unfold readTargetDoc FS.existsSync
  rw [h]
  rfl

/-- C8: for every MCP merge invocation that proceeds (target directory
distinct from the source, source document present, parseable, with at least
one server entry): a target document that fails to parse is treated as an
empty starting document — the merge proceeds and reports a successful write
rather than failing; and when the merged mapping equals the pre-merge target
mapping, the operation returns `false` and performs no write. -/
theorem mcp_merge_error_handling (home : String) (fs : FS) (configDir : String)
    (force : Bool) (srcDoc : McpDoc)
    (hne : expandPath home configDir ≠ expandPath home "~/.claude")
    (hsrcExists : FS.existsSync fs
      (pjoin (expandPath home "~/.claude") ".claude.json") = true)
    (hsrcDoc : readJson fs (pjoin (expandPath home "~/.claude") ".claude.json")
      = some srcDoc)
    (hnonempty : srcDoc.mcpServers.getD [] ≠ []) :
    (∀ q, FS.stat fs (pjoin (expandPath home configDir) ".claude.json")
        = some (q, Entry.file none) →
      syncMcpServersForSync home fs configDir force
        = (writeJson fs (pjoin (expandPath home configDir) ".claude.json")
            { emptyDoc with mcpServers := some (mergedMcpServers force []
                (srcDoc.mcpServers.getD [])) },
          some true))
    ∧ ((mergedMcpServers force
          ((readTargetDoc fs (pjoin (expandPath home configDir) ".claude.json")).mcpServers.getD [])
          (srcDoc.mcpServers.getD [])
        = (readTargetDoc fs (pjoin (expandPath home configDir) ".claude.json")).mcpServers.getD []) →
      syncMcpServersForSync home fs configDir force = (fs, some false)) := by
  have hmain : syncMcpServersForSync home fs configDir force
      = mcpMergeStep fs (pjoin (expandPath home configDir) ".claude.json") force
          (srcDoc.mcpServers.getD []) := by
    unfold syncMcpServersForSync
    rw [if_neg hne, if_neg (not_not_intro hsrcExists), hsrcDoc]
    dsimp only
    rw [if_neg (by simpa [List.isEmpty_iff] using hnonempty)]
  constructor
  · intro q hbad
    rw [hmain]
    unfold mcpMergeStep
    rw [readTargetDoc_unparseable fs _ q hbad]
    have hgd : (emptyDoc.mcpServers.getD []) = ([] : Obj Nat) := rfl
    rw [hgd, mergedMcpServers_nil]
    rw [if_neg (fun hh => hnonempty hh.symm)]
  · intro heq
    rw [hmain]
    unfold mcpMergeStep
    rw [if_pos heq.symm]


/-- A filesystem whose target `.claude.json` exists but is not valid JSON. -/
def c8BadTargetFS : FS :=
  [("/h/.claude", Entry.dir),
   ("/h/.claude/.claude.json",
     Entry.file (some { mcpServers := some [("srv", 1)], extra := 5 })),
   ("/h/.x", Entry.dir),
   ("/h/.x/.claude.json", Entry.file none)]

/-- A filesystem whose target already holds exactly the source servers. -/
def c8UnchangedFS : FS :=
  [("/h/.claude", Entry.dir),
   ("/h/.claude/.claude.json",
     Entry.file (some { mcpServers := some [("srv", 1)], extra := 5 })),
   ("/h/.x", Entry.dir),
   ("/h/.x/.claude.json",
     Entry.file (some { mcpServers := some [("srv", 1)], extra := 9 }))]

/-- C8 witness: on a concrete tree with an unparseable target document the
merge still reports a successful write, and on one whose target already
equals the merge result it reports `false` and leaves the filesystem
untouched. -/
theorem mcp_merge_error_handling_witness :
    syncMcpServersForSync "/h" c8BadTargetFS "~/.x" false
      = (writeJson c8BadTargetFS "/h/.x/.claude.json"
          { emptyDoc with mcpServers := some (mergedMcpServers false []
              ([("srv", 1)] : Obj Nat)) },
        some true)
    ∧ syncMcpServersForSync "/h" c8UnchangedFS "~/.x" false
      = (c8UnchangedFS, some false) :=
  ⟨(mcp_merge_error_handling "/h" c8BadTargetFS "~/.x" false
      { mcpServers := some [("srv", 1)], extra := 5 }
      (by decide) (by decide) (by decide) (by decide)).1
      "/h/.x/.claude.json" (by decide),
    (mcp_merge_error_handling "/h" c8UnchangedFS "~/.x" false
      { mcpServers := some [("srv", 1)], extra := 5 }
      (by decide) (by decide) (by decide) (by decide)).2 (by decide)⟩

/-- Every branch of one loop iteration reports the resource it was given. -/
theorem syncOne_resource (home : String) (fs : FS) (baseSource targetDir : String)
    (force : Bool) (resource : String) :
    (syncOne home fs baseSource targetDir force resource).2.resource = resource := by
  unfold syncOne syncCreate
  split
  · rfl
  · split
    · split
      · rfl
      · rfl
    · rfl
    · rfl

/-- The loop reports exactly one result per requested resource, in order. -/
theorem syncLoop_resources (home baseSource targetDir : String) (force : Bool)
    (rs : List String) : ∀ fs : FS,
    ((syncLoop home baseSource targetDir force fs rs).2.map
      (fun r => r.resource)) = rs := by
  induction rs with
  | nil =>
    intro fs
    rfl
  | cons r rest ih =>
    intro fs
    simp only [syncLoop, List.map_cons]
    rw [syncOne_resource, ih]

/-- The filesystem of the claimed two-call scenario: the canonical tree has a
real `commands` directory and the target already holds a real (non-symlink)
directory at the same resource. -/
def c2FS : FS :=
  [("/h/.claude", Entry.dir), ("/h/.claude/commands", Entry.dir),
   ("/h/.x", Entry.dir), ("/h/.x/commands", Entry.dir)]

/-- The target tree after the forced second call: the real directory has been
replaced with a symlink to the canonical source. -/
def c2FSAfter : FS :=
  [("/h/.claude", Entry.dir), ("/h/.claude/commands", Entry.dir),
   ("/h/.x", Entry.dir), ("/h/.x/commands", Entry.symlink "/h/.claude/commands")]

def c2SkippedResults : List SyncResult :=
  [⟨"commands", "skipped"⟩, ⟨"settings.json", "skipped"⟩, ⟨"plugins", "skipped"⟩,
   ⟨"skills", "skipped"⟩, ⟨"agents", "skipped"⟩, ⟨"CLAUDE.md", "skipped"⟩,
   ⟨"AGENTS.md", "skipped"⟩, ⟨"prompts", "skipped"⟩, ⟨".ccsignore", "skipped"⟩]

def c2ForcedResults : List SyncResult :=
  [⟨"commands", "forced"⟩, ⟨"settings.json", "skipped"⟩, ⟨"plugins", "skipped"⟩,
   ⟨"skills", "skipped"⟩, ⟨"agents", "skipped"⟩, ⟨"CLAUDE.md", "skipped"⟩,
   ⟨"AGENTS.md", "skipped"⟩, ⟨"prompts", "skipped"⟩, ⟨".ccsignore", "skipped"⟩]

/-- C2: every resource of the fixed descriptor list yields exactly one
`SyncResult`, in declared order (the result list restricted to the descriptor
count is the descriptor list itself); and in the concrete two-call scenario
where the target already holds a real (non-symlink) directory, the first call
with `force = false` reports `skipped` for it and leaves the filesystem
untouched, while the second call with `force = true` reports `forced` and
replaces the directory with a symlink to the canonical source. -/
theorem sync_results_order_and_force :
    (∀ (home : String) (fs : FS) (configDir : String) (force : Bool)
        (rs : List SyncResult),
      (syncSharedResources home fs configDir force).2 = some rs →
      ((rs.map (fun r => r.resource)).take SHARED_RESOURCES.length)
        = SHARED_RESOURCES)
    ∧ syncSharedResources "/h" c2FS "~/.x" false = (c2FS, some c2SkippedResults)
    ∧ syncSharedResources "/h" c2FS "~/.x" true
        = (c2FSAfter, some c2ForcedResults)
    ∧ FS.lstat c2FSAfter "/h/.x/commands"
        = some (Entry.symlink "/h/.claude/commands") := by
  refine ⟨?_, by decide, by decide, by decide⟩
  intro home fs configDir force rs h
  unfold syncSharedResources at h
  by_cases hc : expandPath home configDir = expandPath home "~/.claude"
  · rw [if_pos hc] at h
    simp at h
  · rw [if_neg hc] at h
    unfold syncTail at h
    have hlen := syncLoop_resources home (expandPath home "~/.claude")
      (expandPath home configDir) force SHARED_RESOURCES fs
    cases hm : syncMcpServersForSync home
        (syncLoop home (expandPath home "~/.claude") (expandPath home configDir)
          force fs SHARED_RESOURCES).1 configDir force with
    | mk fs' ob =>
      rw [hm] at h
      cases ob with
      | some b =>
        dsimp only at h
        have hrs : (syncLoop home (expandPath home "~/.claude")
            (expandPath home configDir) force fs SHARED_RESOURCES).2
              ++ [⟨"mcpServers", if b then "created" else "exists"⟩] = rs := by
          simpa using h
        rw [← hrs, List.map_append, List.take_append_eq_append_take, hlen]
        simp
      | none =>
        dsimp only at h
        have hrs : (syncLoop home (expandPath home "~/.claude")
            (expandPath home configDir) force fs SHARED_RESOURCES).2 = rs := by
          simpa using h
        rw [← hrs, hlen]
        have : SHARED_RESOURCES.length
            = ((syncLoop home (expandPath home "~/.claude")
                (expandPath home configDir) force fs SHARED_RESOURCES).2.map
                  (fun r => r.resource)).length := by rw [hlen]
        rw [hlen] at this
        exact List.take_length SHARED_RESOURCES ▸ rfl

/-- C2 witness: the order-and-completeness law applied to the first call of
the concrete scenario. -/
theorem sync_results_order_and_force_witness :
    ((c2SkippedResults.map (fun r => r.resource)).take SHARED_RESOURCES.length)
      = SHARED_RESOURCES :=
  sync_results_order_and_force.1 "/h" c2FS "~/.x" false c2SkippedResults
    (by decide)

/-- The merge-and-write step either reports `false` leaving the filesystem
untouched, or reports `true`. -/
theorem mcpMergeStep_false_no_write (fs : FS) (tf : String) (force : Bool)
    (s : Obj Nat) (h : (mcpMergeStep fs tf force s).2 = some false) :
    mcpMergeStep fs tf force s = (fs, some false) := by
  by_cases hc : ((readTargetDoc fs tf).mcpServers.getD [])
      = mergedMcpServers force ((readTargetDoc fs tf).mcpServers.getD []) s
  · unfold mcpMergeStep
    rw [if_pos hc]
  · unfold mcpMergeStep at h
    rw [if_neg hc] at h
    simp at h

/-- `syncMcpServersForSync` either no-ops with `null` or hands over to the
merge-and-write step on the target document. -/
theorem syncMcp_cases (home : String) (fs : FS) (configDir : String)
    (force : Bool) :
    syncMcpServersForSync home fs configDir force = (fs, none)
    ∨ ∃ s, syncMcpServersForSync home fs configDir force
        = mcpMergeStep fs (pjoin (expandPath home configDir) ".claude.json")
            force s := by
  unfold syncMcpServersForSync
  split
  · left
    rfl
  · split
    · left
      rfl
    · split
      · left
        rfl
      · split
        · left
          rfl
        · right
          exact ⟨_, rfl⟩

/-- When the MCP stage reports `false`, it wrote nothing. -/
theorem syncMcp_false_no_write (home : String) (fs : FS) (configDir : String)
    (force : Bool)
    (h : (syncMcpServersForSync home fs configDir force).2 = some false) :
    (syncMcpServersForSync home fs configDir force).1 = fs := by
  rcases syncMcp_cases home fs configDir force with hc | ⟨s, hc⟩
  · rw [hc] at h
    simp at h
  · rw [hc] at h ⊢
    rw [mcpMergeStep_false_no_write fs _ force s h]

/-- C10: when the sync proceeds (target distinct from the canonical source)
and the MCP stage does not signal `null`, the returned list is the
one-per-descriptor results followed by one extra `mcpServers` entry whose
status is `created` when a write occurred and `exists` otherwise — so the
result list is one entry longer than the fixed resource descriptor list; and
in the `exists` case the MCP stage left the loop's filesystem untouched. -/
theorem syncShared_appends_mcp_entry (home : String) (fs : FS)
    (configDir : String) (force : Bool) (b : Bool)
    (hne : expandPath home configDir ≠ expandPath home "~/.claude")
    (hmcp : (syncMcpServersForSync home
        (syncLoop home (expandPath home "~/.claude") (expandPath home configDir)
          force fs SHARED_RESOURCES).1 configDir force).2 = some b) :
    (syncSharedResources home fs configDir force).2
      = some ((syncLoop home (expandPath home "~/.claude")
            (expandPath home configDir) force fs SHARED_RESOURCES).2
          ++ [⟨"mcpServers", if b then "created" else "exists"⟩])
    ∧ ((syncSharedResources home fs configDir force).2.map
        (fun rs => rs.length)) = some (SHARED_RESOURCES.length + 1)
    ∧ (b = false → (syncSharedResources home fs configDir force).1
        = (syncLoop home (expandPath home "~/.claude") (expandPath home configDir)
            force fs SHARED_RESOURCES).1) := by
  have hloop := syncLoop_resources home (expandPath home "~/.claude")
    (expandPath home configDir) force SHARED_RESOURCES fs
  have hlen : (syncLoop home (expandPath home "~/.claude")
      (expandPath home configDir) force fs SHARED_RESOURCES).2.length
        = SHARED_RESOURCES.length := by
    conv_rhs => rw [← hloop]
    rw [List.length_map]
  have hmain : syncSharedResources home fs configDir force
      = syncTail home
          (syncLoop home (expandPath home "~/.claude") (expandPath home configDir)
            force fs SHARED_RESOURCES) configDir force := by
    unfold syncSharedResources
    rw [if_neg hne]
  cases hm : syncMcpServersForSync home
      (syncLoop home (expandPath home "~/.claude") (expandPath home configDir)
        force fs SHARED_RESOURCES).1 configDir force with
  | mk fs' ob =>
    have hob : ob = some b := by
      have := hmcp
      rw [hm] at this
      exact this
    subst hob
    have htail : syncSharedResources home fs configDir force
        = (fs', some ((syncLoop home (expandPath home "~/.claude")
              (expandPath home configDir) force fs SHARED_RESOURCES).2
            ++ [⟨"mcpServers", if b then "created" else "exists"⟩])) := by
      rw [hmain]
      unfold syncTail
      rw [hm]
    refine ⟨by rw [htail], ?_, ?_⟩
    · rw [htail]
      simp [hlen]
    · intro hb
      subst hb
      rw [htail]
      have := syncMcp_false_no_write home
        (syncLoop home (expandPath home "~/.claude") (expandPath home configDir)
          force fs SHARED_RESOURCES).1 configDir force (by rw [hm])
      rw [hm] at this
      exact this

/-- A canonical tree carrying one MCP server and a bare target directory. -/
def c10FS : FS :=
  [("/h/.claude", Entry.dir),
   ("/h/.claude/.claude.json",
     Entry.file (some { mcpServers := some [("srv", 1)], extra := 0 })),
   ("/h/.x", Entry.dir)]

/-- C10 witness: on the concrete tree the sync returns ten results, the last
being the appended `mcpServers` entry with status `created`. -/
theorem syncShared_appends_mcp_entry_witness :
    (syncSharedResources "/h" c10FS "~/.x" false).2
      = some ((syncLoop "/h" (expandPath "/h" "~/.claude") (expandPath "/h" "~/.x")
            false c10FS SHARED_RESOURCES).2
          ++ [⟨"mcpServers", if true then "created" else "exists"⟩])
    ∧ ((syncSharedResources "/h" c10FS "~/.x" false).2.map
        (fun rs => rs.length)) = some (SHARED_RESOURCES.length + 1) :=
  ⟨(syncShared_appends_mcp_entry "/h" c10FS "~/.x" false true
      (by decide) (by decide)).1,
    (syncShared_appends_mcp_entry "/h" c10FS "~/.x" false true
      (by decide) (by decide)).2.1⟩

/-! ## Directory size computation (`getDirSize`, runner.ts 43-68)

A second, richer filesystem model in which directories list their children
(what `readdirSync` reports) and files carry byte sizes. -/

inductive SEntry
  | file (size : Nat)
  | dir (children : List String)
  | symlink (target : String)
deriving DecidableEq, Repr

abbrev SFS := List (String × SEntry)

namespace SFS

def lstat (fs : SFS) (p : String) : Option SEntry :=
  (List.find? (fun e => e.1 == p) fs).map (fun e => e.2)

/-- Follow a symlink chain at a path, with fuel standing for the kernel's
bounded link traversal. -/
def resolve (fs : SFS) : Nat → String → Option (String × SEntry)
  | 0, _ => none
  | fuel + 1, p =>
    match lstat fs p with
    | some (SEntry.symlink t) => resolve fs fuel t
    | some e => some (p, e)
    | none => none

/-- `statSync`: follows symlinks. -/
def stat (fs : SFS) (p : String) : Option (String × SEntry) :=
  resolve fs (fs.length + 1) p

def existsS (fs : SFS) (p : String) : Bool :=
  (stat fs p).isSome

end SFS

/-- `getDirSize` (runner.ts 43-68): 0 for a nonexistent path; `statSync` the
path — which follows a symlink — and return the byte size when the result is
not a directory; otherwise sum the recursive sizes of the listed children.
The fuel argument stands for the depth bound the OS imposes on the real
recursion (paths grow until `ENAMETOOLONG`, whose error the code catches,
returning 0 for that subtree); children of a directory reached through a
symlink are addressed by their canonical path, as the flat model stores each
entry once.  The 5-second `dirSizeCache` is omitted: within a single pure
evaluation it only memoizes identical results. -/
def getDirSize (fs : SFS) : Nat → String → Nat
  | 0, _ => 0
  | fuel + 1, p =>
    if ¬ SFS.existsS fs p then 0
    else
      match SFS.stat fs p with
      | some (_, SEntry.file sz) => sz
      | some (q, SEntry.dir children) =>
        (children.map (fun name => getDirSize fs fuel (pjoin q name))).sum
      | _ => 0

/-- The directory size as claim C3 describes it: 0 for a missing path, the
byte length for a file, and for a directory the recursive sum of descendant
file sizes where symlinks are never followed and contribute nothing. -/
def specSizeOf (fs : SFS) : Nat → String → Nat
  | 0, _ => 0
  | fuel + 1, p =>
    match SFS.lstat fs p with
    | some (SEntry.file sz) => sz
    | some (SEntry.dir children) =>
      (children.map (fun name => specSizeOf fs fuel (pjoin p name))).sum
    | some (SEntry.symlink _) => 0
    | none => 0

/-- A directory holding one symlink to a 7-byte file stored elsewhere. -/
def c3FS : SFS :=
  [("/f", SEntry.file 7), ("/d", SEntry.dir ["s"]), ("/d/s", SEntry.symlink "/f")]

/-- C3 counterexample: `getDirSize` stats through symlinks, so the symlink's
target size is counted — the directory measures 7 bytes where the claim's
no-follow semantics yields 0. -/
theorem getDirSize_follows_symlinks_counterexample :
    getDirSize c3FS 3 "/d" = 7
    ∧ specSizeOf c3FS 3 "/d" = 0
    ∧ getDirSize c3FS 3 "/d" ≠ specSizeOf c3FS 3 "/d" := by
  refine ⟨by decide, by decide, by decide⟩

theorem SFS.stat_of_lstat_file (fs : SFS) (p : String) (sz : Nat)
    (h : SFS.lstat fs p = some (SEntry.file sz)) :
    SFS.stat fs p = some (p, SEntry.file sz) := by
  unfold SFS.stat
  simp only [SFS.resolve, h]

/-- C3 amended: `sizeOf` returns 0 when the path does not exist and the byte
length when it is a file; for a directory it sums the recursive sizes of the
listed children with symlinks followed (`statSync` semantics): a symlink to a
file counts the target's size — witnessed concretely — and traversal depth is
bounded only by the modelled OS error cut-off, an exhausted branch
contributing 0. -/
theorem getDirSize_spec (fs : SFS) (p : String) (n : Nat)
    (hn : 0 < n) :
    (SFS.existsS fs p = false → getDirSize fs n p = 0)
    ∧ (∀ sz, SFS.lstat fs p = some (SEntry.file sz) → getDirSize fs n p = sz)
    ∧ (∀ q children, SFS.stat fs p = some (q, SEntry.dir children) →
        getDirSize fs n p
          = (children.map (fun name => getDirSize fs (n - 1) (pjoin q name))).sum)
    ∧ getDirSize c3FS 3 "/d" = 7 := by
  obtain ⟨m, rfl⟩ : ∃ m, n = m + 1 := ⟨n - 1, by omega⟩
  refine ⟨?_, ?_, ?_, by decide⟩
  · intro h
    simp only [getDirSize, h]
    simp
  · intro sz h
    have hs := SFS.stat_of_lstat_file fs p sz h
    have he : SFS.existsS fs p = true := by
      unfold SFS.existsS
      rw [hs]
      rfl
    simp only [getDirSize, he, hs]
    simp
  · intro q children h
    have he : SFS.existsS fs p = true := by
      unfold SFS.existsS
      rw [h]
      rfl
    simp only [getDirSize, he, h]
    simp

/-- C3 amended witness: the amended size law applied on the concrete tree at
its file and directory. -/
theorem getDirSize_spec_witness :
    getDirSize c3FS 3 "/f" = 7 ∧ getDirSize c3FS 3 "/d" = 7 :=
  ⟨(getDirSize_spec c3FS "/f" 3 (by decide)).2.1 7 (by decide),
    (getDirSize_spec c3FS "/d" 3 (by decide)).2.2.2⟩

/-! ## Session-file truncation (`truncateSessionFile`, runner.ts 132-150) -/

/-- ASCII whitespace, the fragment of JS `trim`'s whitespace class relevant
to the strings the tool handles. -/
def isJsSpace (c : Char) : Bool :=
  c == ' ' || c == '\t' || c == '\n' || c == '\r'

/-- JS `String.prototype.trim`. -/
def jsTrim (s : String) : String :=
  String.mk (((s.data.dropWhile isJsSpace).reverse.dropWhile isJsSpace).reverse)

/-- `content.split('\n').filter(line => line.trim())`: the records of a
newline-delimited session file — blank lines are not records. -/
def sessionLines (content : String) : List String :=
  (jsSplit content '\n').filter (fun line => jsTrim line != "")

/-- `truncateSessionFile` (runner.ts 132-150) on the file's contents.  `none`
models returning `false` without writing; `some c` models writing `c` and
returning `true`.  The ratio is passed as the exact rational
`ratioNum / ratioDen`; at the program's call sites (0.3 and 0.2) the
floating-point `Math.floor(lines.length * ratio)` agrees with the rational
floor for every line count. -/
def truncateSessionFile (content : String) (ratioNum ratioDen : Nat) :
    Option String :=
  if (sessionLines content).length ≤ 10 then none -- Keep small sessions as-is
  else
    -- Keep only the last N% of lines (minimum 10 lines)
    some (joinSep "\n" ((sessionLines content).drop
      ((sessionLines content).length
        - max 10 ((sessionLines content).length * ratioNum / ratioDen))) ++ "\n")

/-- C4: the line-count-gated truncation leaves any file of at most 10 records
unchanged whatever its byte size; with more than 10 records it keeps exactly
the last `max 10 (floor (count * ratio))` records; in particular a
1000-record file at ratio 0.3 retains exactly the last 300 records. -/
theorem truncate_line_gate :
    (∀ (ratioNum ratioDen : Nat) (content : String),
      (sessionLines content).length ≤ 10 →
      truncateSessionFile content ratioNum ratioDen = none)
    ∧ (∀ (ratioNum ratioDen : Nat) (content : String),
      10 < (sessionLines content).length →
      truncateSessionFile content ratioNum ratioDen
        = some (joinSep "\n" ((sessionLines content).drop
            ((sessionLines content).length
              - max 10 ((sessionLines content).length * ratioNum / ratioDen)))
          ++ "\n"))
    ∧ (∀ content : String,
      (sessionLines content).length = 1000 →
      truncateSessionFile content 3 10
        = some (joinSep "\n" ((sessionLines content).drop 700) ++ "\n")) := by
  refine ⟨?_, ?_, ?_⟩
  · intro ratioNum ratioDen content h
    unfold truncateSessionFile
    rw [if_pos h]
  · intro ratioNum ratioDen content h
    unfold truncateSessionFile
    rw [if_neg (by omega)]
  · intro content h
    unfold truncateSessionFile
    rw [if_neg (by omega), h]
    norm_num

/-- A block of characters free of the separator splits off as one field. -/
theorem splitCharAux_no_sep (sep : Char) (l acc : List Char) (h : sep ∉ l) :
    splitCharAux sep l acc = [acc.reverse ++ l] := by
  induction l generalizing acc with
  | nil => simp [splitCharAux]
  | cons c cs ih =>
    have hc : c ≠ sep := fun he => h (he ▸ List.mem_cons_self c cs)
    have hcs : sep ∉ cs := fun hm => h (List.mem_cons_of_mem c hm)
    simp only [splitCharAux, if_neg hc]
    rw [ih _ hcs]
    simp

theorem splitCharAux_sep_split (sep : Char) (l rest acc : List Char)
    (h : sep ∉ l) :
    splitCharAux sep (l ++ sep :: rest) acc
      = (acc.reverse ++ l) :: splitCharAux sep rest [] := by
  induction l generalizing acc with
  | nil => simp [splitCharAux]
  | cons c cs ih =>
    have hc : c ≠ sep := fun he => h (he ▸ List.mem_cons_self c cs)
    have hcs : sep ∉ cs := fun hm => h (List.mem_cons_of_mem c hm)
    simp only [List.cons_append, splitCharAux, if_neg hc]
    show splitCharAux sep (cs ++ sep :: rest) (c :: acc)
      = (acc.reverse ++ c :: cs) :: splitCharAux sep rest []
    rw [ih _ hcs]
    simp

/-- Splitting a newline-join of newline-free lines recovers the lines. -/
theorem jsSplit_joinSep (ls : List String)
    (h : ∀ x ∈ ls, ('\n' : Char) ∉ x.data) (hne : ls ≠ []) :
    jsSplit (joinSep "\n" ls) '\n' = ls := by
  induction ls with
  | nil => exact absurd rfl hne
  | cons x xs ih =>
    cases xs with
    | nil =>
      show jsSplit (joinSep "\n" [x]) '\n' = [x]
      unfold jsSplit joinSep
      rw [splitCharAux_no_sep _ _ _ (h x (List.mem_cons_self x []))]
      cases x with
      | mk d => rfl
    | cons y ys =>
      show jsSplit (x ++ "\n" ++ joinSep "\n" (y :: ys)) '\n' = x :: y :: ys
      unfold jsSplit
      have hdata : (x ++ "\n" ++ joinSep "\n" (y :: ys)).data
          = x.data ++ '\n' :: (joinSep "\n" (y :: ys)).data := by
        simp [String.data_append]
      rw [hdata,
        splitCharAux_sep_split _ _ _ _ (h x (List.mem_cons_self x (y :: ys)))]
      have hmk : String.mk x.data = x := by
        cases x with
        | mk d => rfl
      have hxs : ∀ z ∈ y :: ys, ('\n' : Char) ∉ z.data :=
        fun z hz => h z (List.mem_cons_of_mem x hz)
      have := ih hxs (by simp)
      unfold jsSplit at this
      simp only [List.map_cons, List.reverse_nil, List.nil_append, hmk]
      rw [this]

/-- A newline-join of nonblank newline-free lines has exactly those lines as
its records. -/
theorem sessionLines_joinSep (ls : List String)
    (hnb : ∀ x ∈ ls, jsTrim x ≠ "")
    (hnl : ∀ x ∈ ls, ('\n' : Char) ∉ x.data) (hne : ls ≠ []) :
    sessionLines (joinSep "\n" ls) = ls := by
  unfold sessionLines
  rw [jsSplit_joinSep ls hnl hne]
  apply List.filter_eq_self.mpr
  intro x hx
  simpa using hnb x hx

/-- The 5-record file of the claim (with an oversized blank-padded line to
exercise "regardless of byte size" and a blank line that is not a record). -/
def fiveLineContent : String :=
  joinSep "\n" ["alpha", "beta", "gamma", "", "delta",
    String.mk (List.replicate 64 'e') ++ " "]

/-- A 1000-record file. -/
def kiloLineContent : String :=
  joinSep "\n" (List.replicate 1000 "x")

theorem sessionLines_kilo :
    sessionLines kiloLineContent = List.replicate 1000 "x" := by
  unfold kiloLineContent
  apply sessionLines_joinSep
  · intro x hx
    rw [List.eq_of_mem_replicate hx]
    decide
  · intro x hx
    rw [List.eq_of_mem_replicate hx]
    decide
  · intro h
    have hlen := congrArg List.length h
    rw [List.length_replicate, List.length_nil] at hlen
    exact absurd hlen (by omega)

set_option maxRecDepth 100000 in
/-- C4 witness: the gate applied to the concrete 5-record file (unchanged)
and to the concrete 1000-record file at ratio 0.3 (last 300 records kept). -/
theorem truncate_line_gate_witness :
    truncateSessionFile fiveLineContent 3 10 = none
    ∧ truncateSessionFile kiloLineContent 3 10
      = some (joinSep "\n" ((sessionLines kiloLineContent).drop 700) ++ "\n") :=
  ⟨truncate_line_gate.1 3 10 fiveLineContent (by decide),
    truncate_line_gate.2.2 kiloLineContent (by rw [sessionLines_kilo]; simp)⟩

/-! ## State store (state.ts) and the memory-reset gate of `runClaude` -/

/-- The `provider_state` table: `provider_key` is the primary key, so at most
one row per key; `last_memory_reset` is a millisecond timestamp. -/
abbrev StateTable := List (String × Int)

/-- `getLastMemoryReset` (state.ts 31-35): `row?.last_memory_reset ?? 0`. -/
def getLastMemoryReset (t : StateTable) (k : String) : Int :=
  match List.find? (fun r => r.1 == k) t with
  | some r => r.2
  | none => 0

/-- `setLastMemoryReset` (state.ts 37-44): an upsert on the primary key. -/
def setLastMemoryReset (t : StateTable) (k : String) (ts : Int) : StateTable :=
  if (List.find? (fun r => r.1 == k) t).isSome then
    t.map (fun r => if r.1 = k then (k, ts) else r)
  else t ++ [(k, ts)]

/-- The fixed gate interval: `24 * 60 * 60 * 1000` ms (state.ts 46). -/
def DAY_MS : Int := 24 * 60 * 60 * 1000

/-- `shouldResetMemory` (state.ts 46-50): `(now - lastReset) > maxAgeMs`. -/
def shouldResetMemory (t : StateTable) (k : String) (now maxAgeMs : Int) : Bool :=
  decide (now - getLastMemoryReset t k > maxAgeMs)

/-- The memory-reset preflight step of `runClaude` (runner.ts 420-428): when
the provider enables memory reset and the gate says due, wipe the reset
targets — abstracted by `cleanedBytes`, which feeds only the log line — and
record the new timestamp.  `setLastMemoryReset` sits outside the
`cleaned > 0` check, so the write happens for every `cleanedBytes`. -/
def memoryResetStep (memoryReset : Bool) (t : StateTable) (k : String)
    (now : Int) (_cleanedBytes : Nat) : StateTable :=
  if memoryReset && shouldResetMemory t k now DAY_MS then
    setLastMemoryReset t k now
  else t

theorem getLastMemoryReset_set_self (t : StateTable) (k : String) (ts : Int) :
    getLastMemoryReset (setLastMemoryReset t k ts) k = ts := by
  unfold setLastMemoryReset getLastMemoryReset
  by_cases h : (List.find? (fun r => r.1 == k) t).isSome = true
  · rw [if_pos h]
    induction t with
    | nil => simp at h
    | cons r rest ih =>
      by_cases hr : r.1 = k
      · simp [hr]
      · have hb : (r.1 == k) = false := by simpa using hr
        simp only [List.map_cons, if_neg hr, List.find?_cons, hb] at *
        exact ih h
  · rw [if_neg h]
    rw [List.find?_append]
    have hn : List.find? (fun r => r.1 == k) t = none := by
      cases hf : List.find? (fun r => r.1 == k) t with
      | none => rfl
      | some v =>
        rw [hf] at h
        simp at h
    rw [hn]
    simp

/-- C5: `shouldResetMemory` is true for a provider key with no row (at any
clock instant past the interval itself), false immediately after
`setLastMemoryReset` for that key, true again once the stored timestamp is
older than the fixed 24-hour gate; and the launch step records the reset
timestamp for the key whenever the gate fired — for every `cleanedBytes`
value, including zero bytes freed. -/
theorem memory_reset_gate :
    (∀ (t : StateTable) (k : String) (now : Int),
      List.find? (fun r => r.1 == k) t = none → DAY_MS < now →
      shouldResetMemory t k now DAY_MS = true)
    ∧ (∀ (t : StateTable) (k : String) (now : Int),
      shouldResetMemory (setLastMemoryReset t k now) k now DAY_MS = false)
    ∧ (∀ (t : StateTable) (k : String) (now : Int),
      now - getLastMemoryReset t k > DAY_MS →
      shouldResetMemory t k now DAY_MS = true)
    ∧ (∀ (t : StateTable) (k : String) (now : Int) (cleanedBytes : Nat),
      shouldResetMemory t k now DAY_MS = true →
      getLastMemoryReset (memoryResetStep true t k now cleanedBytes) k = now) := by
  refine ⟨?_, ?_, ?_, ?_⟩
  · intro t k now hrow hnow
    unfold shouldResetMemory getLastMemoryReset
    rw [hrow]
    simpa using hnow
  · intro t k now
    unfold shouldResetMemory
    rw [getLastMemoryReset_set_self]
    simp [DAY_MS]
  · intro t k now h
    unfold shouldResetMemory
    simpa using h
  · intro t k now cleanedBytes h
    unfold memoryResetStep
    rw [if_pos (by simp [h]), getLastMemoryReset_set_self]

/-- C5 witness: a fresh one-key run of the gate at a concrete clock: due on
the empty table, not due right after the recorded reset (with zero bytes
freed), due again 25 hours later. -/
theorem memory_reset_gate_witness :
    shouldResetMemory [] "glm" 1700000000000 DAY_MS = true
    ∧ shouldResetMemory (setLastMemoryReset [] "glm" 1700000000000) "glm"
        1700000000000 DAY_MS = false
    ∧ shouldResetMemory [("glm", 1700000000000)] "glm"
        (1700000000000 + 25 * 60 * 60 * 1000) DAY_MS = true
    ∧ getLastMemoryReset (memoryResetStep true [] "glm" 1700000000000 0) "glm"
        = 1700000000000 :=
  ⟨memory_reset_gate.1 [] "glm" 1700000000000 rfl (by decide),
    memory_reset_gate.2.1 [] "glm" 1700000000000,
    memory_reset_gate.2.2.1 [("glm", 1700000000000)] "glm"
      (1700000000000 + 25 * 60 * 60 * 1000) (by decide),
    memory_reset_gate.2.2.2 [] "glm" 1700000000000 0 (by decide)⟩

/-! ## Launch environment build (`runClaude`, runner.ts 456-475) -/

namespace Obj

/-- JS property assignment `o[k] = v`: overwrite in place when the key
exists, append otherwise. -/
def set {β : Type} (o : Obj β) (k : String) (v : β) : Obj β :=
  if (find? o k).isSome then
    o.map (fun kv => if kv.1 = k then (k, v) else kv)
  else o ++ [(k, v)]

theorem find?_set_self {β : Type} (o : Obj β) (k : String) (v : β) :
    find? (set o k v) k = some v := by
  unfold set
  by_cases h : (find? o k).isSome = true
  · rw [if_pos h]
    unfold find? at *
    induction o with
    | nil => simp at h
    | cons kv rest ih =>
      by_cases hp : kv.1 = k
      · simp [hp]
      · have hb : (kv.1 == k) = false := by simpa using hp
        simp only [List.map_cons, if_neg hp, List.find?_cons, hb] at *
        exact ih h
  · rw [if_neg h]
    rw [find?_append]
    have hn : find? o k = none := by
      cases hf : find? o k with
      | none => rfl
      | some w =>
        rw [hf] at h
        simp at h
    rw [hn]
    simp [find?_cons]

/-- Rewriting the bindings of one key leaves lookups of other keys alone. -/
theorem find?_map_setkey {β : Type} (o : Obj β) (k q : String) (v : β)
    (h : q ≠ k) :
    find? (o.map (fun kv => if kv.1 = k then (k, v) else kv)) q
      = find? o q := by
  induction o with
  | nil => rfl
  | cons kv rest ih =>
    by_cases hp : kv.1 = k
    · rw [List.map_cons, if_pos hp, find?_cons, find?_cons]
      have hbq : (k == q) = false := by simpa using fun he => h he.symm
      have hbq2 : (kv.1 == q) = false := by
        rw [hp]
        exact hbq
      simp only [hbq, hbq2, Bool.false_eq_true, if_false]
      exact ih
    · rw [List.map_cons, if_neg hp, find?_cons, find?_cons]
      by_cases hq : (kv.1 == q) = true
      · simp [hq]
      · have hb : (kv.1 == q) = false := by simpa using hq
        simp only [hb, Bool.false_eq_true, if_false]
        exact ih

theorem find?_set_other {β : Type} (o : Obj β) (k q : String) (v : β)
    (h : q ≠ k) :
    find? (set o k v) q = find? o q := by
  unfold set
  by_cases hs : (find? o k).isSome = true
  · rw [if_pos hs]
    exact find?_map_setkey o k q v h
  · rw [if_neg hs, find?_append]
    cases hf : find? o q with
    | some w => rfl
    | none =>
      have hbq : (k == q) = false := by simpa using fun he => h he.symm
      simp [find?_cons, hbq, find?_nil]

end Obj

/-- JS `String.prototype.includes`, over character lists so the kernel can
evaluate it. -/
def containsSub (pat : List Char) : List Char → Bool
  | [] => pat.isEmpty
  | c :: cs => pat.isPrefixOf (c :: cs) || containsSub pat cs

def jsIncludes (s pat : String) : Bool := containsSub pat.data s.data

/-- The `NODE_OPTIONS` value computed by `runClaude` (runner.ts 456-460): the
parent value is kept verbatim when it already mentions
`--max-old-space-size`; otherwise the 8GB flag is appended (with the same
`trim` the code applies to the template string). -/
def nodeOptionsFor (processEnv : Obj String) : String :=
  if jsIncludes ((Obj.find? processEnv "NODE_OPTIONS").getD "")
      "--max-old-space-size" then
    (Obj.find? processEnv "NODE_OPTIONS").getD ""
  else
    jsTrim (((Obj.find? processEnv "NODE_OPTIONS").getD "")
      ++ " --max-old-space-size=8192")

/-- The `Provider` record fields consumed by `runClaude`; `env` entries carry
`Option` values because the schema admits undefined members. -/
structure Provider where
  type : String
  configDir : String
  env : Option (List (String × Option String))
  memoryReset : Bool

/-- The credential loop of `runClaude` (runner.ts 469-475): assign each
defined entry, skip undefined ones. -/
def applyProviderEnv (e : Obj String) : List (String × Option String) → Obj String
  | [] => e
  | (k, some v) :: rest => applyProviderEnv (Obj.set e k v) rest
  | (_, none) :: rest => applyProviderEnv e rest

/-- The child environment built by `runClaude` (runner.ts 462-475):
`{...process.env, CLAUDE_CONFIG_DIR: configDir, NODE_OPTIONS: nodeOptions}`
followed, for api_key providers, by the defined entries of `provider.env`. -/
def buildEnv (processEnv : Obj String) (configDir : String)
    (provider : Provider) : Obj String :=
  if provider.type = "api_key" then
    match provider.env with
    | some pe =>
      applyProviderEnv
        (Obj.set (Obj.set processEnv "CLAUDE_CONFIG_DIR" configDir)
          "NODE_OPTIONS" (nodeOptionsFor processEnv)) pe
    | none =>
      Obj.set (Obj.set processEnv "CLAUDE_CONFIG_DIR" configDir)
        "NODE_OPTIONS" (nodeOptionsFor processEnv)
  else
    Obj.set (Obj.set processEnv "CLAUDE_CONFIG_DIR" configDir)
      "NODE_OPTIONS" (nodeOptionsFor processEnv)

/-- The last defined binding a provider-env list assigns to a key (later
entries overwrite earlier ones, undefined entries assign nothing). -/
def lastDefined : List (String × Option String) → String → Option String
  | [], _ => none
  | (k0, ov) :: rest, k =>
    match lastDefined rest k with
    | some v => some v
    | none =>
      if k0 = k then
        match ov with
        | some v => some v
        | none => none
      else none

/-- The value the provider record contributes for a key: only api_key
providers contribute, and only their defined entries. -/
def providerValue (provider : Provider) (k : String) : Option String :=
  if provider.type = "api_key" then
    match provider.env with
    | some pe => lastDefined pe k
    | none => none
  else none

theorem find?_applyProviderEnv (pe : List (String × Option String)) :
    ∀ (e : Obj String) (k : String),
    Obj.find? (applyProviderEnv e pe) k
      = (lastDefined pe k).or (Obj.find? e k) := by
  induction pe with
  | nil =>
    intro e k
    rfl
  | cons kv rest ih =>
    intro e k
    obtain ⟨k0, ov⟩ := kv
    cases ov with
    | some v =>
      simp only [applyProviderEnv, lastDefined]
      rw [ih]
      cases hl : lastDefined rest k with
      | some w => rfl
      | none =>
        by_cases hk : k0 = k
        · subst hk
          rw [Obj.find?_set_self]
          simp
        · rw [Obj.find?_set_other e k0 k v (fun he => hk he.symm)]
          simp [hk]
    | none =>
      simp only [applyProviderEnv, lastDefined]
      rw [ih]
      cases hl : lastDefined rest k with
      | some w => rfl
      | none =>
        by_cases hk : k0 = k
        · simp [hk]
        · simp [hk]

/-- Lookup in the built environment: the provider's contribution wins, the
base overlay (parent env + pointer + runtime options) is the fallback. -/
theorem find?_buildEnv (processEnv : Obj String) (configDir : String)
    (provider : Provider) (k : String) :
    Obj.find? (buildEnv processEnv configDir provider) k
      = (providerValue provider k).or
          (Obj.find? (Obj.set (Obj.set processEnv "CLAUDE_CONFIG_DIR" configDir)
            "NODE_OPTIONS" (nodeOptionsFor processEnv)) k) := by
  unfold buildEnv providerValue
  by_cases ht : provider.type = "api_key"
  · rw [if_pos ht, if_pos ht]
    cases he : provider.env with
    | some pe =>
      dsimp only
      exact find?_applyProviderEnv pe _ k
    | none =>
      dsimp only
      rw [Option.none_or]
  · rw [if_neg ht, if_neg ht]
    rw [Option.none_or]

/-- C6: the child environment is the parent environment overlaid with the
config-directory pointer, the runtime-options variable with the heap flag
appended only when no such flag is already present (a user-supplied limit is
kept verbatim), and — for api_key providers only — every defined entry of the
provider's env mapping, undefined entries being omitted: every key the
overlay does not mention reads exactly as in the parent environment. -/
theorem launch_env_build (processEnv : Obj String) (configDir : String)
    (provider : Provider) :
    (∀ k v, providerValue provider k = some v →
      Obj.find? (buildEnv processEnv configDir provider) k = some v)
    ∧ (providerValue provider "CLAUDE_CONFIG_DIR" = none →
      Obj.find? (buildEnv processEnv configDir provider) "CLAUDE_CONFIG_DIR"
        = some configDir)
    ∧ (providerValue provider "NODE_OPTIONS" = none →
      Obj.find? (buildEnv processEnv configDir provider) "NODE_OPTIONS"
        = some (if jsIncludes ((Obj.find? processEnv "NODE_OPTIONS").getD "")
              "--max-old-space-size"
            then (Obj.find? processEnv "NODE_OPTIONS").getD ""
            else jsTrim (((Obj.find? processEnv "NODE_OPTIONS").getD "")
              ++ " --max-old-space-size=8192")))
    ∧ (∀ k, k ≠ "CLAUDE_CONFIG_DIR" → k ≠ "NODE_OPTIONS" →
      providerValue provider k = none →
      Obj.find? (buildEnv processEnv configDir provider) k
        = Obj.find? processEnv k) := by
  refine ⟨?_, ?_, ?_, ?_⟩
  · intro k v h
    rw [find?_buildEnv, h]
    rfl
  · intro h
    rw [find?_buildEnv, h, Option.none_or]
    rw [Obj.find?_set_other _ _ _ _ (by decide), Obj.find?_set_self]
  · intro h
    rw [find?_buildEnv, h, Option.none_or]
    rw [Obj.find?_set_self]
    rfl
  · intro k hcfg hno h
    rw [find?_buildEnv, h, Option.none_or]
    rw [Obj.find?_set_other _ _ _ _ hno, Obj.find?_set_other _ _ _ _ hcfg]

/-- A parent environment that already carries a user heap limit. -/
def wParentEnv : Obj String :=
  [("PATH", "/usr/bin"), ("NODE_OPTIONS", "--max-old-space-size=4096")]

/-- An api_key provider with one defined and one undefined env entry. -/
def wProvider : Provider :=
  { type := "api_key", configDir := "~/.claude-glm",
    env := some [("ANTHROPIC_AUTH_TOKEN", some "tok"), ("ANTHROPIC_MODEL", none)],
    memoryReset := true }

/-- C6 witness: the environment law at a concrete launch — the defined
credential lands, the undefined one is omitted (the key reads as in the
parent), the pointer is set, and the pre-existing user heap limit is kept
verbatim, not duplicated. -/
theorem launch_env_build_witness :
    Obj.find? (buildEnv wParentEnv "/h/.claude-glm" wProvider)
        "ANTHROPIC_AUTH_TOKEN" = some "tok"
    ∧ Obj.find? (buildEnv wParentEnv "/h/.claude-glm" wProvider)
        "ANTHROPIC_MODEL" = Obj.find? wParentEnv "ANTHROPIC_MODEL"
    ∧ Obj.find? (buildEnv wParentEnv "/h/.claude-glm" wProvider)
        "CLAUDE_CONFIG_DIR" = some "/h/.claude-glm"
    ∧ Obj.find? (buildEnv wParentEnv "/h/.claude-glm" wProvider)
        "NODE_OPTIONS" = some "--max-old-space-size=4096" := by
  refine ⟨?_, ?_, ?_, ?_⟩
  · exact (launch_env_build wParentEnv "/h/.claude-glm" wProvider).1
      "ANTHROPIC_AUTH_TOKEN" "tok" (by decide)
  · exact (launch_env_build wParentEnv "/h/.claude-glm" wProvider).2.2.2
      "ANTHROPIC_MODEL" (by decide) (by decide) (by decide)
  · exact (launch_env_build wParentEnv "/h/.claude-glm" wProvider).2.1 (by decide)
  · rw [(launch_env_build wParentEnv "/h/.claude-glm" wProvider).2.2.1 (by decide)]
    decide
